import Mathlib

/-!
Verification development for the quiz-generation pipeline of the
`da-quizly` repository (Django service layer in
`quiz_app/api/services.py`, helpers in `quiz_app/api/utils.py`, view
glue in `quiz_app/api/views.py`, models in `quiz_app/models.py`).

The Python code is shallowly embedded:

* parsed JSON values (`json.loads` output) become the inductive `JVal`;
* Python exceptions become `Except PyErr`, where `PyErr.valueError`
  models `ValueError` (mapped to HTTP 400 by the view) and
  `PyErr.otherError` models every other exception class
  (`TypeError`, `KeyError`, storage faults, SDK errors - mapped to 500);
* the external collaborators (yt-dlp + whisper transcript extraction,
  the Gemini client, `json.loads`, and storage faults) are abstracted
  into an `Env` record of oracles, since their internals are not part
  of this repository's logic;
* the relational store becomes an explicit `DB` state threaded through
  the persister, with `transaction.atomic` given its rollback
  semantics.
-/

/-- Parsed JSON value, the result shape of Python's `json.loads`.
Numbers are modelled as integers (no claim involves fractional
values). -/
inductive JVal where
  | null
  | bool (b : Bool)
  | num (n : Int)
  | str (s : String)
  | arr (xs : List JVal)
  | obj (fields : List (String × JVal))
deriving Repr

/-- Python exception classes as the view layer distinguishes them:
`CreateQuizView.post` turns `ValueError` into HTTP 400 and any other
exception into HTTP 500 (views.py lines 67-70). -/
inductive PyErr where
  | valueError (msg : String)
  | otherError (msg : String)
deriving Repr, DecidableEq

/-- ASCII whitespace as matched by Python's `str.strip` and the `\s`
regex class. -/
def pyIsSpace (c : Char) : Bool :=
  c = ' ' || c = '\t' || c = '\n' || c = '\r' || c = '\x0b' || c = '\x0c'

/-- Python `str.strip()` on a character list: drop whitespace from both
ends. -/
def pyStrip (l : List Char) : List Char :=
  ((l.dropWhile pyIsSpace).reverse.dropWhile pyIsSpace).reverse

/-- Python `str.strip()` at `String` type. -/
def pyStripStr (s : String) : String :=
  String.mk (pyStrip s.toList)

/-! ### URL normalizer (`utils.normalize_youtube_url`)

```python
m = re.search(r"(?:v=|youtu\.be/)([A-Za-z0-9_-]{6,})", url)
if not m:
    return None
vid = m.group(1)
return f"https://www.youtube.com/watch?v={vid}"
```

`re.search` scans start positions left to right; at a position the
alternation tries `v=` then `youtu.be/` (the two literals start with
different characters, so at most one can apply), and the greedy
`[A-Za-z0-9_-]{6,}` captures the maximal run of id characters, failing
the position if the run is shorter than 6. -/

/-- The character class `[A-Za-z0-9_-]` of the video-id regex. -/
def isIdChar (c : Char) : Bool :=
  c.isAlpha || c.isDigit || c = '_' || c = '-'

/-- Attempt of the regex `(?:v=|youtu\.be/)([A-Za-z0-9_-]{6,})` at one
fixed start position: the marker literal must match here, and the
greedy id-run after it must have length at least 6. -/
def matchAt (s : List Char) : Option (List Char) :=
  if s.take 2 = "v=".toList then
    (let run := (s.drop 2).takeWhile isIdChar
     if 6 ≤ run.length then some run else none)
  else if s.take 9 = "youtu.be/".toList then
    (let run := (s.drop 9).takeWhile isIdChar
     if 6 ≤ run.length then some run else none)
  else none

/-- `re.search`: try `matchAt` at each start position from the left,
returning the first capture. -/
def reSearchVid : List Char → Option (List Char)
  | [] => none
  | c :: rest =>
    match matchAt (c :: rest) with
    | some r => some r
    | none => reSearchVid rest

/-- `utils.normalize_youtube_url`. -/
def normalize_youtube_url (url : String) : Option String :=
  (reSearchVid url.toList).map
    fun vid => "https://www.youtube.com/watch?v=" ++ String.mk vid

/-! ### Fence stripper (`utils.strip_json_fences`)

```python
t = text.strip()
if t.startswith("```"):
    t = re.sub(r"^```[a-zA-Z]*\s*", "", t)
    t = re.sub(r"\s*```$", "", t)
    t = t.strip()
return t
```

The first `sub` removes the three backticks, then the maximal letter
run, then the maximal whitespace run.  The second `sub` applies to a
string with no trailing whitespace (its input's trailing characters
come from the already-stripped `t`), so `$` is plain end-of-string
there: it removes one trailing backtick triple together with the
whitespace just before it, if the string ends with a triple. -/

/-- The three-backtick fence delimiter. -/
def fenceDelim : List Char := "```".toList

/-- `utils.strip_json_fences`. -/
def strip_json_fences (text : String) : String :=
  let t := pyStrip text.toList
  if t.take 3 = fenceDelim then
    let t1 := ((t.drop 3).dropWhile Char.isAlpha).dropWhile pyIsSpace
    let t2 :=
      if t1.reverse.take 3 = fenceDelim then
        ((t1.reverse.drop 3).dropWhile pyIsSpace).reverse
      else t1
    String.mk (pyStrip t2)
  else String.mk t

/-! ### Quiz schema validator (`QuizService.validate_quiz_data`)

The validator receives `json.loads` output, so Python-level semantics
of dict membership, `set` construction and `==` apply:

* `set(opts)` hashes the options; a JSON array or object option is
  unhashable and raises `TypeError` (not `ValueError`);
* Python `==` on the hashable JSON scalars identifies `True` with `1`
  and `False` with `0` (`bool` is an `int` subclass); a compound value
  compares unequal to every scalar.  By the time `ans not in opts`
  runs, `set(opts)` has succeeded, so every option is a scalar and
  `pyEq` below covers exactly the comparisons performed. -/

/-- Hashability of a JSON value in Python: scalars are hashable,
arrays (`list`) and objects (`dict`) are not. -/
def qHashable : JVal → Bool
  | .arr _ => false
  | .obj _ => false
  | _ => true

/-- Python `==` restricted to the comparisons the validator performs
(at least one operand a hashable scalar): structural equality on
scalars except that booleans equal their integer images; a compound
value is unequal to every scalar. -/
def pyEq : JVal → JVal → Bool
  | .null, .null => true
  | .bool a, .bool b => a == b
  | .bool a, .num n => n == (if a then 1 else 0)
  | .num n, .bool b => n == (if b then 1 else 0)
  | .num a, .num b => a == b
  | .str a, .str b => a == b
  | _, _ => false

/-- `len(set(xs))`: the number of `pyEq`-distinct elements. -/
def setSize : List JVal → Nat
  | [] => 0
  | x :: xs => (if xs.any (pyEq x) then 0 else 1) + setSize xs

/-- Association-list lookup modelling Python dict access on parsed
JSON objects. -/
def jLookup (fields : List (String × JVal)) (k : String) : Option JVal :=
  List.lookup k fields

/-- Total field access used in specification statements: the value of
key `k`, or `null` when absent or when the value is not an object. -/
def jGet (d : JVal) (k : String) : JVal :=
  match d with
  | .obj fields => (jLookup fields k).getD .null
  | _ => .null

/-- Validation of one entry of `data["questions"]` (the body of the
`for q in questions` loop in `validate_quiz_data`). -/
def validate_question (q : JVal) : Except PyErr Unit :=
  match q with
  | .obj f =>
    if (jLookup f "question_title").isNone
        || (jLookup f "question_options").isNone
        || (jLookup f "answer").isNone then
      .error (.valueError "Question is missing.")
    else
      let opts := jGet q "question_options"
      let ans := jGet q "answer"
      match opts with
      | .arr o =>
        if o.length ≠ 4 then
          .error (.valueError "Every question must have exactly 4 options.")
        else if ¬ o.all qHashable then
          .error (.otherError "TypeError: unhashable type")
        else if setSize o ≠ 4 then
          .error (.valueError "Options must be unique.")
        else if ¬ o.any (fun e => pyEq e ans) then
          .error (.valueError "Answer must be one of the question_options.")
        else .ok ()
      | _ => .error (.valueError "Every question must have exactly 4 options.")
  | _ => .error (.valueError "Invalid question format.")

/-- The `for q in questions` loop: fail on the first bad question. -/
def validate_questions : List JVal → Except PyErr Unit
  | [] => .ok ()
  | q :: rest =>
    match validate_question q with
    | .ok _ => validate_questions rest
    | .error e => .error e

/-- `QuizService.validate_quiz_data` (identical to
`utils.validate_quiz_json` and `CreateQuizView._validate_quiz_json`). -/
def validate_quiz_data (data : JVal) : Except PyErr Unit :=
  match data with
  | .obj f =>
    if (jLookup f "title").isNone || (jLookup f "description").isNone
        || (jLookup f "questions").isNone then
      .error (.valueError "Missing required quiz fields.")
    else
      match jGet data "questions" with
      | .arr qs =>
        if qs.length ≠ 10 then
          .error (.valueError "Quiz must contain exactly 10 questions.")
        else validate_questions qs
      | _ => .error (.valueError "Quiz must contain exactly 10 questions.")
  | _ => .error (.valueError "Invalid quiz format.")

/-- The fixed client-facing validation messages (`ValueError` texts of
`validate_quiz_data`), the error taxonomy of spec section 7. -/
def validationTaxonomy : List String :=
  ["Invalid quiz format.",
   "Missing required quiz fields.",
   "Quiz must contain exactly 10 questions.",
   "Invalid question format.",
   "Question is missing.",
   "Every question must have exactly 4 options.",
   "Options must be unique.",
   "Answer must be one of the question_options."]

-- sanity checks on the embedding
example : normalize_youtube_url "not a url" = none := by decide

example :
    normalize_youtube_url "https://youtu.be/dQw4w9WgXcQ"
      = some "https://www.youtube.com/watch?v=dQw4w9WgXcQ" := by decide

example :
    normalize_youtube_url "x v=abc v=abcdefg"
      = some "https://www.youtube.com/watch?v=abcdefg" := by decide

example : strip_json_fences "```json\n[1, 2]\n```" = "[1, 2]" := by decide

example : strip_json_fences "  [3] " = "[3]" := by decide

example :
    validate_quiz_data (.obj [("title", .str "t")])
      = .error (.valueError "Missing required quiz fields.") := rfl

example :
    validate_question (.obj [("question_title", .null),
      ("question_options", .arr [.str "A", .str "B", .str "C", .str "D"]),
      ("answer", .str "B")]) = .ok () := rfl

example :
    validate_question (.obj [("question_title", .null),
      ("question_options", .arr [.bool true, .num 1, .str "C", .str "D"]),
      ("answer", .str "D")])
      = .error (.valueError "Options must be unique.") := rfl

example :
    validate_question (.obj [("question_title", .null),
      ("question_options", .arr [.arr [], .arr [.num 1], .arr [.num 2], .arr [.num 3]]),
      ("answer", .arr [])])
      = .error (.otherError "TypeError: unhashable type") := rfl

/-! ### Persister (`QuizService.save_quiz_to_database`)

```python
with transaction.atomic():
    quiz = Quiz.objects.create(user=..., title=..., description=..., video_url=...)
    for q in quiz_data["questions"]:
        Question.objects.create(quiz=quiz, question_title=..., question_options=..., answer=...)
return quiz
```

The store is a pair of row tables.  `transaction.atomic` gives
all-or-nothing semantics: if any write inside the block raises, every
write of the block is rolled back and the exception propagates.
Storage faults are injected through a `fault` oracle: `some 0` makes
the `Quiz` row write fail, `some (i + 1)` makes the write of question
number `i + 1` (1-based) fail, `none` means the storage behaves. -/

/-- A persisted `Quiz` row (models.py); the primary key is its index
in insertion order.  Timestamps are not modelled. -/
structure QuizRow where
  id : Nat
  user : Nat
  title : JVal
  description : JVal
  video_url : String
deriving Repr

/-- A persisted `Question` row (models.py), child of one quiz. -/
structure QuestionRow where
  quiz : Nat
  question_title : JVal
  question_options : JVal
  answer : JVal
deriving Repr

/-- The relational store: quizzes and questions in insertion order
(the model's `ordering = ['id']` for questions is insertion order). -/
structure DB where
  quizzes : List QuizRow
  questions : List QuestionRow
deriving Repr

/-- Python subscript `d[k]` on a parsed JSON object: `KeyError` (a
non-`ValueError` exception) when the key is absent. -/
def dictGet (d : JVal) (k : String) : Except PyErr JVal :=
  match d with
  | .obj fields =>
    match jLookup fields k with
    | some v => .ok v
    | none => .error (.otherError "KeyError")
  | _ => .error (.otherError "TypeError: not subscriptable")

/-- The `for q in quiz_data["questions"]` loop body: one
`Question.objects.create` per draft question, appended in draft order.
`idx` is the 1-based number of the next question write, compared
against the injected fault. -/
def insertQuestions (quizId : Nat) (fault : Option Nat) :
    List JVal → Nat → DB → Except PyErr DB
  | [], _, db => .ok db
  | q :: rest, idx, db =>
    if fault = some idx then .error (.otherError "storage fault") else
    match dictGet q "question_title" with
    | .error e => .error e
    | .ok qt =>
      match dictGet q "question_options" with
      | .error e => .error e
      | .ok opts =>
        match dictGet q "answer" with
        | .error e => .error e
        | .ok ans =>
          insertQuestions quizId fault rest (idx + 1)
            { db with questions := db.questions ++ [⟨quizId, qt, opts, ans⟩] }

/-- The body of the `transaction.atomic` block: create the quiz row,
then the question rows in draft order.  A value of `questions` that is
not a JSON array cannot reach the loop (the validator runs first); its
degenerate Python iteration behaviours are collapsed to an error. -/
def save_quiz_body (user : Nat) (quiz_data : JVal) (video_url : String)
    (fault : Option Nat) (db : DB) : Except PyErr (DB × QuizRow) :=
  if fault = some 0 then .error (.otherError "storage fault") else
  match dictGet quiz_data "title" with
  | .error e => .error e
  | .ok t =>
    match dictGet quiz_data "description" with
    | .error e => .error e
    | .ok desc =>
      let quiz : QuizRow := ⟨db.quizzes.length, user, t, desc, video_url⟩
      let db1 : DB := { db with quizzes := db.quizzes ++ [quiz] }
      match dictGet quiz_data "questions" with
      | .error e => .error e
      | .ok (.arr qs) =>
        match insertQuestions quiz.id fault qs 1 db1 with
        | .error e => .error e
        | .ok db2 => .ok (db2, quiz)
      | .ok _ => .error (.otherError "TypeError: not iterable")

/-- `QuizService.save_quiz_to_database`: the atomic block with
rollback-on-exception semantics.  On failure the store is exactly the
store before the call. -/
def save_quiz_to_database (user : Nat) (quiz_data : JVal) (video_url : String)
    (fault : Option Nat) (db : DB) : DB × Except PyErr QuizRow :=
  match save_quiz_body user quiz_data video_url fault db with
  | .ok (db2, quiz) => (db2, .ok quiz)
  | .error e => (db, .error e)

/-- The question rows a draft's question list denotes, for
specification statements (field access via the total `jGet`). -/
def draftQuestionRows (quizId : Nat) (qs : List JVal) : List QuestionRow :=
  qs.map fun q =>
    ⟨quizId, jGet q "question_title", jGet q "question_options", jGet q "answer"⟩

/-! ### AI content generator and orchestrator

`QuizService.generate_quiz_content` and
`QuizService.create_quiz_from_youtube`.  External collaborators are
oracles in `Env`:

* `extract` is `QuizService.extract_video_transcript` (yt-dlp +
  ffmpeg + whisper; its Python body is subprocess and network work):
  it may raise (`.error`), or return `None` or a transcript;
* `apiKeySet` is whether the `GEMINI_API_KEY` configuration value is
  non-empty;
* `ai` is the Gemini round trip `client.models.generate_content`
  followed by `getattr(result, "text", None)`: it may raise, or
  produce an optional response text;
* `jsonParse` is Python's `json.loads`: a parsed value or the parser's
  error message;
* `fault` is the storage-fault oracle of the persister. -/

/-- External collaborators of one `create_quiz_from_youtube` call. -/
structure Env where
  extract : String → Except PyErr (Option String)
  apiKeySet : Bool
  ai : String → Except PyErr (Option String)
  jsonParse : String → Except String JVal
  fault : Option Nat

/-- `utils.build_gemini_quiz_prompt`: deterministic instruction text,
schema example plus hard requirements, with the transcript appended
verbatim at the end. -/
def build_gemini_quiz_prompt (transcript : String) : String :=
  "Based on the following transcript, generate a quiz in valid JSON format.\n\n" ++
  "The quiz must follow this exact structure:\n\n" ++
  "\x7b\n  \"title\": \"Create a concise quiz title based on the topic of the transcript.\",\n" ++
  "  \"description\": \"Summarize the transcript in no more than 150 characters. Do not include any quiz questions or answers.\",\n" ++
  "  \"questions\": [\n    \x7b\n      \"question_title\": \"The question goes here.\",\n" ++
  "      \"question_options\": [\"Option A\", \"Option B\", \"Option C\", \"Option D\"],\n" ++
  "      \"answer\": \"The correct answer from the above options\"\n    \x7d\n  ]\n\x7d\n\n" ++
  "Requirements:\n- Exactly 10 questions.\n" ++
  "- Each question must have exactly 4 distinct answer options.\n" ++
  "- Only one correct answer is allowed per question, and it must be present in \x27question_options\x27.\n" ++
  "- The output must be valid JSON and parsable as-is.\n" ++
  "- Do not include explanations, comments, or any text outside the JSON.\n\n" ++
  "Transcript:\n" ++ transcript ++ "\n"

/-- `QuizService.generate_quiz_content`: fail fast on a missing
credential, call the model, reject a blank reply, strip fences, parse;
a parse failure is wrapped in the generation-failure `ValueError`. -/
def generate_quiz_content (env : Env) (transcript : String) : Except PyErr JVal :=
  if env.apiKeySet = false then .error (.valueError "GEMINI_API_KEY is not set.") else
  match env.ai (build_gemini_quiz_prompt transcript) with
  | .error e => .error e
  | .ok respText =>
    let raw := pyStrip ((respText.getD "").toList)
    if raw = [] then
      .error (.valueError "AI has failed the Job: Empty response from model.")
    else
      match env.jsonParse (strip_json_fences (String.mk raw)) with
      | .ok v => .ok v
      | .error e => .error (.valueError ("AI has failed the Job: " ++ e))

/-- The tail of the orchestrator after the transcript gate: generate,
validate, persist. -/
def pipeline_tail (env : Env) (user : Nat) (normalized_url : String)
    (transcript : String) (db : DB) : DB × Except PyErr QuizRow :=
  match generate_quiz_content env transcript with
  | .error e => (db, .error e)
  | .ok quiz_json =>
    match validate_quiz_data quiz_json with
    | .error e => (db, .error e)
    | .ok _ => save_quiz_to_database user quiz_json normalized_url env.fault db

/-- `QuizService.create_quiz_from_youtube`: normalize, gate the
transcript (`if not transcript or len(transcript.strip()) < 50`), then
generate, validate and persist.  The store is returned alongside the
outcome; only the persist step changes it. -/
def create_quiz_from_youtube (env : Env) (user : Nat) (url : String)
    (db : DB) : DB × Except PyErr QuizRow :=
  match normalize_youtube_url url with
  | none => (db, .error (.valueError "Invalid YouTube URL."))
  | some normalized_url =>
    match env.extract normalized_url with
    | .error e => (db, .error e)
    | .ok none => (db, .error (.valueError "No Transcript Found."))
    | .ok (some transcript) =>
      if (pyStrip transcript.toList).length < 50 then
        (db, .error (.valueError "No Transcript Found."))
      else pipeline_tail env user normalized_url transcript db

/-- Tail of `QuizService.extract_video_transcript` (services.py lines
115-117): `text = (result.get("text") or "").strip(); return text if
len(text) >= 50 else None` - the acquirer-side transcript floor. -/
def transcript_postprocess (whisperText : Option String) : Option String :=
  let text := pyStrip ((whisperText.getD "").toList)
  if 50 ≤ text.length then some (String.mk text) else none

/-- HTTP status the view (`CreateQuizView.post`) gives each pipeline
outcome: 201 on success, 400 for `ValueError`, 500 otherwise. -/
def viewStatus (r : Except PyErr QuizRow) : Nat :=
  match r with
  | .ok _ => 201
  | .error (.valueError _) => 400
  | .error (.otherError _) => 500

example :
    (save_quiz_to_database 1 (.obj [("title", .str "t"), ("description", .str "d"),
       ("questions", .arr [])]) "u" none ⟨[], []⟩).2
      = .ok ⟨0, 1, .str "t", .str "d", "u"⟩ := rfl

example :
    (save_quiz_to_database 1 (.obj [("title", .str "t"), ("description", .str "d"),
       ("questions", .arr [.obj [("question_title", .str "q"),
         ("question_options", .arr [.str "A"]), ("answer", .str "A")]])])
      "u" (some 1) ⟨[], []⟩)
      = (⟨[], []⟩, .error (.otherError "storage fault")) := rfl

/-! ### Specification-side acceptance predicates for the validator -/

/-- Acceptance condition on one question as the specification words
it, with plain structural equality of JSON values: a mapping with the
three keys, exactly 4 pairwise-distinct options, answer equal to one
of them. -/
def QuestionAcceptsClaim (q : JVal) : Prop :=
  ∃ f, q = .obj f ∧ (jLookup f "question_title").isSome = true
    ∧ (jLookup f "question_options").isSome = true
    ∧ (jLookup f "answer").isSome = true
    ∧ ∃ o, jLookup f "question_options" = some (.arr o)
      ∧ o.length = 4
      ∧ List.Pairwise (fun a b : JVal => a ≠ b) o
      ∧ ∃ a, jLookup f "answer" = some a ∧ a ∈ o

/-- Acceptance condition on a quiz draft as the specification words
it, with plain structural equality of JSON values. -/
def QuizAcceptsClaim (d : JVal) : Prop :=
  ∃ f, d = .obj f ∧ (jLookup f "title").isSome = true
    ∧ (jLookup f "description").isSome = true
    ∧ ∃ qs, jLookup f "questions" = some (.arr qs) ∧ qs.length = 10
      ∧ ∀ q ∈ qs, QuestionAcceptsClaim q

/-- Acceptance condition on one question as the code actually decides
it: additionally every option must be hashable (a scalar), and
distinctness and answer membership are under Python equality `pyEq`. -/
def QuestionAcceptsPy (q : JVal) : Prop :=
  ∃ f, q = .obj f ∧ (jLookup f "question_title").isSome = true
    ∧ (jLookup f "question_options").isSome = true
    ∧ (jLookup f "answer").isSome = true
    ∧ ∃ o, jGet q "question_options" = .arr o
      ∧ o.length = 4
      ∧ (∀ x ∈ o, qHashable x = true)
      ∧ List.Pairwise (fun a b => pyEq a b = false) o
      ∧ ∃ x ∈ o, pyEq x (jGet q "answer") = true

/-- Acceptance condition on a quiz draft as the code actually decides
it. -/
def QuizAcceptsPy (d : JVal) : Prop :=
  ∃ f, d = .obj f ∧ (jLookup f "title").isSome = true
    ∧ (jLookup f "description").isSome = true
    ∧ ∃ qs, jGet d "questions" = .arr qs ∧ qs.length = 10
      ∧ ∀ q ∈ qs, QuestionAcceptsPy q

/-- Some question of the draft has an unhashable (array or object)
option - the situation in which `set(opts)` raises `TypeError`. -/
def HasUnhashableOption (d : JVal) : Prop :=
  ∃ f qs q g o x, d = .obj f ∧ jLookup f "questions" = some (.arr qs)
    ∧ q ∈ qs ∧ q = .obj g
    ∧ jLookup g "question_options" = some (.arr o)
    ∧ x ∈ o ∧ qHashable x = false

lemma setSize_le_length (xs : List JVal) : setSize xs ≤ xs.length := by
  induction xs with
  | nil => simp [setSize]
  | cons x xs ih =>
    simp only [setSize, List.length_cons]
    split <;> omega

lemma setSize_eq_length_iff (xs : List JVal) :
    setSize xs = xs.length ↔ List.Pairwise (fun a b => pyEq a b = false) xs := by
  induction xs with
  | nil => simp [setSize]
  | cons x xs ih =>
    have hle := setSize_le_length xs
    simp only [setSize, List.length_cons, List.pairwise_cons]
    by_cases h : xs.any (pyEq x) = true
    · rw [if_pos h]
      constructor
      · intro hlen; omega
      · rintro ⟨hall, -⟩
        obtain ⟨y, hy, hpy⟩ := List.any_eq_true.mp h
        have := hall y hy
        simp [hpy] at this
    · rw [if_neg h]
      have hall : ∀ y ∈ xs, pyEq x y = false := by
        intro y hy
        by_contra hne
        exact h (List.any_eq_true.mpr ⟨y, hy, by simpa using hne⟩)
      constructor
      · intro hlen
        exact ⟨hall, ih.mp (by omega)⟩
      · rintro ⟨-, hpw⟩
        have := ih.mpr hpw
        omega

lemma validate_questions_ok_iff (qs : List JVal) :
    validate_questions qs = .ok () ↔ ∀ q ∈ qs, validate_question q = .ok () := by
  induction qs with
  | nil => simp [validate_questions]
  | cons q rest ih =>
    simp only [validate_questions]
    cases h : validate_question q with
    | ok u =>
      cases u
      simp only [ih, List.mem_cons]
      constructor
      · intro hrest x hx
        rcases hx with rfl | hx
        · exact h
        · exact hrest x hx
      · intro hall x hx
        exact hall x (Or.inr hx)
    | error e =>
      constructor
      · intro hc; exact absurd hc (by simp)
      · intro hall
        have := hall q (List.mem_cons_self q rest)
        rw [h] at this
        exact absurd this (by simp)

lemma validate_question_obj_unfold (f : List (String × JVal))
    (h1 : ¬ ((jLookup f "question_title").isNone
        || (jLookup f "question_options").isNone
        || (jLookup f "answer").isNone) = true)
    (o : List JVal) (hov : jLookup f "question_options" = some (.arr o)) :
    validate_question (.obj f) =
      (if o.length ≠ 4 then
        .error (.valueError "Every question must have exactly 4 options.")
      else if ¬ o.all qHashable then
        .error (.otherError "TypeError: unhashable type")
      else if setSize o ≠ 4 then
        .error (.valueError "Options must be unique.")
      else if ¬ o.any (fun e => pyEq e (jGet (.obj f) "answer")) then
        .error (.valueError "Answer must be one of the question_options.")
      else .ok ()) := by
  simp only [validate_question]
  rw [if_neg h1]
  simp only [jGet]
  rw [hov, Option.getD_some]

lemma validate_question_ok_iff (q : JVal) :
    validate_question q = .ok () ↔ QuestionAcceptsPy q := by
  cases q with
  | obj f =>
    by_cases h1 : ((jLookup f "question_title").isNone
        || (jLookup f "question_options").isNone
        || (jLookup f "answer").isNone) = true
    · constructor
      · intro h
        simp only [validate_question] at h
        rw [if_pos h1] at h
        exact absurd h (by simp)
      · rintro ⟨g, hg, ht, ho, ha, -⟩
        obtain rfl : f = g := by injection hg
        exfalso
        simp only [Bool.or_eq_true, Option.isNone_iff_eq_none] at h1
        rcases h1 with (h | h) | h
        · rw [h] at ht; simp at ht
        · rw [h] at ho; simp at ho
        · rw [h] at ha; simp at ha
    · have h1' := h1
      simp only [Bool.or_eq_true, not_or, Bool.not_eq_true] at h1'
      obtain ⟨⟨ht, ho⟩, ha⟩ := h1'
      rw [Option.isNone_eq_false_iff] at ht ho ha
      obtain ⟨ov, hov⟩ := Option.isSome_iff_exists.mp ho
      have hRnotarr : (∀ o : List JVal, ov ≠ .arr o) → ¬ QuestionAcceptsPy (.obj f) := by
        rintro hne ⟨g, hg, -, -, -, o, hgo, -⟩
        obtain rfl : f = g := by injection hg
        rw [jGet, hov, Option.getD_some] at hgo
        exact hne o hgo
      have hLnotarr : (∀ o : List JVal, ov ≠ .arr o) →
          validate_question (.obj f)
            = .error (.valueError "Every question must have exactly 4 options.") := by
        intro hne
        simp only [validate_question]
        rw [if_neg h1]
        simp only [jGet]
        rw [hov, Option.getD_some]
        cases ov with
        | arr o => exact absurd rfl (hne o)
        | null => rfl
        | bool b => rfl
        | num n => rfl
        | str s => rfl
        | obj g2 => rfl
      cases hcase : ov with
      | arr o =>
        rw [hcase] at hov
        rw [validate_question_obj_unfold f h1 o hov]
        constructor
        · intro hval
          by_cases hlen : o.length = 4
          · rw [if_neg (by omega)] at hval
            by_cases hhash : o.all qHashable = true
            · rw [if_neg (by simp [hhash])] at hval
              by_cases hset : setSize o = 4
              · rw [if_neg (by omega)] at hval
                by_cases hany : (o.any (fun e => pyEq e (jGet (.obj f) "answer"))) = true
                · refine ⟨f, rfl, ht, ho, ha, o,
                    by rw [jGet, hov, Option.getD_some], hlen,
                    fun x hx => List.all_eq_true.mp hhash x hx,
                    (setSize_eq_length_iff o).mp (by omega), ?_⟩
                  simpa using List.any_eq_true.mp hany
                · rw [if_pos (by simpa using hany)] at hval
                  exact absurd hval (by simp)
              · rw [if_pos (by omega)] at hval
                exact absurd hval (by simp)
            · rw [if_pos (by simpa using hhash)] at hval
              exact absurd hval (by simp)
          · rw [if_pos (by omega)] at hval
            exact absurd hval (by simp)
        · rintro ⟨g, hg, -, -, -, o', hgo, hlen, hhash, hpw, x, hx, hpx⟩
          obtain rfl : f = g := by injection hg
          rw [jGet, hov, Option.getD_some] at hgo
          obtain rfl : o = o' := by injection hgo
          have hset : setSize o = 4 := by
            rw [← hlen]; exact (setSize_eq_length_iff o).mpr hpw
          have hhash' : o.all qHashable = true := List.all_eq_true.mpr hhash
          have hany' : (o.any (fun e => pyEq e (jGet (.obj f) "answer"))) = true :=
            List.any_eq_true.mpr ⟨x, hx, hpx⟩
          rw [if_neg (by omega), if_neg (by simp [hhash']), if_neg (by omega),
            if_neg (by simp [hany'])]
      | null =>
        subst hcase
        rw [hLnotarr (by intro o h; exact absurd h (by simp))]
        constructor
        · intro hc; exact absurd hc (by simp)
        · intro hacc
          exact absurd hacc (hRnotarr (by intro o h; exact absurd h (by simp)))
      | bool b =>
        subst hcase
        rw [hLnotarr (by intro o h; exact absurd h (by simp))]
        constructor
        · intro hc; exact absurd hc (by simp)
        · intro hacc
          exact absurd hacc (hRnotarr (by intro o h; exact absurd h (by simp)))
      | num n =>
        subst hcase
        rw [hLnotarr (by intro o h; exact absurd h (by simp))]
        constructor
        · intro hc; exact absurd hc (by simp)
        · intro hacc
          exact absurd hacc (hRnotarr (by intro o h; exact absurd h (by simp)))
      | str s =>
        subst hcase
        rw [hLnotarr (by intro o h; exact absurd h (by simp))]
        constructor
        · intro hc; exact absurd hc (by simp)
        · intro hacc
          exact absurd hacc (hRnotarr (by intro o h; exact absurd h (by simp)))
      | obj g2 =>
        subst hcase
        rw [hLnotarr (by intro o h; exact absurd h (by simp))]
        constructor
        · intro hc; exact absurd hc (by simp)
        · intro hacc
          exact absurd hacc (hRnotarr (by intro o h; exact absurd h (by simp)))
  | null => simp [validate_question, QuestionAcceptsPy]
  | bool b => simp [validate_question, QuestionAcceptsPy]
  | num n => simp [validate_question, QuestionAcceptsPy]
  | str s => simp [validate_question, QuestionAcceptsPy]
  | arr xs => simp [validate_question, QuestionAcceptsPy]

lemma validate_quiz_obj_unfold (f : List (String × JVal))
    (h1 : ¬ ((jLookup f "title").isNone || (jLookup f "description").isNone
        || (jLookup f "questions").isNone) = true)
    (qs : List JVal) (hqv : jLookup f "questions" = some (.arr qs)) :
    validate_quiz_data (.obj f) =
      (if qs.length ≠ 10 then
        .error (.valueError "Quiz must contain exactly 10 questions.")
      else validate_questions qs) := by
  simp only [validate_quiz_data]
  rw [if_neg h1]
  simp only [jGet]
  rw [hqv, Option.getD_some]

lemma validate_quiz_obj_notarr (f : List (String × JVal))
    (h1 : ¬ ((jLookup f "title").isNone || (jLookup f "description").isNone
        || (jLookup f "questions").isNone) = true)
    (qv : JVal) (hqv : jLookup f "questions" = some qv)
    (hne : ∀ qs : List JVal, qv ≠ .arr qs) :
    validate_quiz_data (.obj f) =
      .error (.valueError "Quiz must contain exactly 10 questions.") := by
  simp only [validate_quiz_data]
  rw [if_neg h1]
  simp only [jGet]
  rw [hqv, Option.getD_some]
  cases qv with
  | arr qs => exact absurd rfl (hne qs)
  | null => rfl
  | bool b => rfl
  | num n => rfl
  | str s => rfl
  | obj g => rfl

/-- C1 (amended): the validator returns without raising exactly on the
inputs accepted by the code-level acceptance predicate `QuizAcceptsPy`
(hashable options, Python equality for distinctness and answer
membership). -/
theorem validate_quiz_data_characterization (d : JVal) :
    validate_quiz_data d = .ok () ↔ QuizAcceptsPy d := by
  cases d with
  | obj f =>
    by_cases h1 : ((jLookup f "title").isNone || (jLookup f "description").isNone
        || (jLookup f "questions").isNone) = true
    · constructor
      · intro h
        simp only [validate_quiz_data] at h
        rw [if_pos h1] at h
        exact absurd h (by simp)
      · rintro ⟨g, hg, ht, hd, qs, hqs, -⟩
        obtain rfl : f = g := by injection hg
        exfalso
        simp only [Bool.or_eq_true, Option.isNone_iff_eq_none] at h1
        rcases h1 with (h | h) | h
        · rw [h] at ht; simp at ht
        · rw [h] at hd; simp at hd
        · rw [jGet, h] at hqs
          exact absurd hqs (by simp)
    · have h1' := h1
      simp only [Bool.or_eq_true, not_or, Bool.not_eq_true] at h1'
      obtain ⟨⟨ht, hd⟩, hq⟩ := h1'
      rw [Option.isNone_eq_false_iff] at ht hd hq
      obtain ⟨qv, hqv⟩ := Option.isSome_iff_exists.mp hq
      cases hcase : qv with
      | arr qs =>
        rw [hcase] at hqv
        rw [validate_quiz_obj_unfold f h1 qs hqv]
        by_cases hlen : qs.length = 10
        · rw [if_neg (by omega)]
          rw [validate_questions_ok_iff]
          constructor
          · intro hall
            exact ⟨f, rfl, ht, hd, qs, by rw [jGet, hqv, Option.getD_some], hlen,
              fun q hq2 => (validate_question_ok_iff q).mp (hall q hq2)⟩
          · rintro ⟨g, hg, -, -, qs', hqs', -, hall⟩
            obtain rfl : f = g := by injection hg
            rw [jGet, hqv, Option.getD_some] at hqs'
            obtain rfl : qs = qs' := by injection hqs'
            exact fun q hq2 => (validate_question_ok_iff q).mpr (hall q hq2)
        · rw [if_pos (by omega)]
          constructor
          · intro hc; exact absurd hc (by simp)
          · rintro ⟨g, hg, -, -, qs', hqs', hlen', -⟩
            obtain rfl : f = g := by injection hg
            rw [jGet, hqv, Option.getD_some] at hqs'
            obtain rfl : qs = qs' := by injection hqs'
            exact absurd hlen' hlen
      | null =>
        subst hcase
        rw [validate_quiz_obj_notarr f h1 _ hqv (by intro qs h; exact absurd h (by simp))]
        constructor
        · intro hc; exact absurd hc (by simp)
        · rintro ⟨g, hg, -, -, qs', hqs', -⟩
          obtain rfl : f = g := by injection hg
          rw [jGet, hqv, Option.getD_some] at hqs'
          exact absurd hqs' (by simp)
      | bool b =>
        subst hcase
        rw [validate_quiz_obj_notarr f h1 _ hqv (by intro qs h; exact absurd h (by simp))]
        constructor
        · intro hc; exact absurd hc (by simp)
        · rintro ⟨g, hg, -, -, qs', hqs', -⟩
          obtain rfl : f = g := by injection hg
          rw [jGet, hqv, Option.getD_some] at hqs'
          exact absurd hqs' (by simp)
      | num n =>
        subst hcase
        rw [validate_quiz_obj_notarr f h1 _ hqv (by intro qs h; exact absurd h (by simp))]
        constructor
        · intro hc; exact absurd hc (by simp)
        · rintro ⟨g, hg, -, -, qs', hqs', -⟩
          obtain rfl : f = g := by injection hg
          rw [jGet, hqv, Option.getD_some] at hqs'
          exact absurd hqs' (by simp)
      | str s =>
        subst hcase
        rw [validate_quiz_obj_notarr f h1 _ hqv (by intro qs h; exact absurd h (by simp))]
        constructor
        · intro hc; exact absurd hc (by simp)
        · rintro ⟨g, hg, -, -, qs', hqs', -⟩
          obtain rfl : f = g := by injection hg
          rw [jGet, hqv, Option.getD_some] at hqs'
          exact absurd hqs' (by simp)
      | obj g2 =>
        subst hcase
        rw [validate_quiz_obj_notarr f h1 _ hqv (by intro qs h; exact absurd h (by simp))]
        constructor
        · intro hc; exact absurd hc (by simp)
        · rintro ⟨g, hg, -, -, qs', hqs', -⟩
          obtain rfl : f = g := by injection hg
          rw [jGet, hqv, Option.getD_some] at hqs'
          exact absurd hqs' (by simp)
  | null => simp [validate_quiz_data, QuizAcceptsPy]
  | bool b => simp [validate_quiz_data, QuizAcceptsPy]
  | num n => simp [validate_quiz_data, QuizAcceptsPy]
  | str s => simp [validate_quiz_data, QuizAcceptsPy]
  | arr xs => simp [validate_quiz_data, QuizAcceptsPy]

/-- A question whose four options are JSON arrays: pairwise distinct
as JSON values and containing the answer, so the specification-level
acceptance predicate holds, but Python's `set(opts)` raises
`TypeError` on the unhashable `list` options. -/
def demoUnhashableQuestion : JVal :=
  .obj [("question_title", .str "q"),
        ("question_options", .arr [.arr [], .arr [.num 1], .arr [.num 2], .arr [.num 3]]),
        ("answer", .arr [])]

/-- A 10-question draft built from `demoUnhashableQuestion`. -/
def demoUnhashableQuiz : JVal :=
  .obj [("title", .str "t"), ("description", .str "d"),
        ("questions", .arr (List.replicate 10 demoUnhashableQuestion))]

lemma demoUnhashableQuestion_claim : QuestionAcceptsClaim demoUnhashableQuestion := by
  refine ⟨_, rfl, by decide, by decide, by decide,
    [.arr [], .arr [.num 1], .arr [.num 2], .arr [.num 3]], rfl, by decide, ?_,
    .arr [], rfl, by simp⟩
  simp [List.pairwise_cons]

/-- C1 (counterexample): `demoUnhashableQuiz` satisfies the claimed
acceptance condition, yet the validator does not accept it - it raises
`TypeError` from the `set(opts)` cardinality check. -/
theorem validate_quiz_claim_counterexample :
    QuizAcceptsClaim demoUnhashableQuiz
    ∧ validate_quiz_data demoUnhashableQuiz ≠ .ok ()
    ∧ validate_quiz_data demoUnhashableQuiz
        = .error (.otherError "TypeError: unhashable type") := by
  refine ⟨⟨_, rfl, by decide, by decide, List.replicate 10 demoUnhashableQuestion,
    rfl, by decide, ?_⟩, ?_, ?_⟩
  · intro q hq
    rw [List.eq_of_mem_replicate hq]
    exact demoUnhashableQuestion_claim
  · intro h
    rw [show validate_quiz_data demoUnhashableQuiz
        = .error (.otherError "TypeError: unhashable type") from rfl] at h
    exact absurd h (by simp)
  · rfl

lemma validate_question_obj_notarr (f : List (String × JVal))
    (h1 : ¬ ((jLookup f "question_title").isNone
        || (jLookup f "question_options").isNone
        || (jLookup f "answer").isNone) = true)
    (ov : JVal) (hov : jLookup f "question_options" = some ov)
    (hne : ∀ o : List JVal, ov ≠ .arr o) :
    validate_question (.obj f) =
      .error (.valueError "Every question must have exactly 4 options.") := by
  simp only [validate_question]
  rw [if_neg h1]
  simp only [jGet]
  rw [hov, Option.getD_some]
  cases ov with
  | arr o => exact absurd rfl (hne o)
  | null => rfl
  | bool b => rfl
  | num n => rfl
  | str s => rfl
  | obj g => rfl

lemma validate_question_taxonomy (q : JVal) :
    validate_question q = .ok ()
    ∨ (∃ m, validate_question q = .error (.valueError m) ∧ m ∈ validationTaxonomy)
    ∨ (validate_question q = .error (.otherError "TypeError: unhashable type")
       ∧ ∃ g o x, q = .obj g ∧ jLookup g "question_options" = some (.arr o)
           ∧ x ∈ o ∧ qHashable x = false) := by
  cases q with
  | obj f =>
    by_cases h1 : ((jLookup f "question_title").isNone
        || (jLookup f "question_options").isNone
        || (jLookup f "answer").isNone) = true
    · refine Or.inr (Or.inl ⟨"Question is missing.", ?_, by decide⟩)
      simp only [validate_question]
      rw [if_pos h1]
    · have h1' := h1
      simp only [Bool.or_eq_true, not_or, Bool.not_eq_true] at h1'
      obtain ⟨⟨ht, ho⟩, ha⟩ := h1'
      rw [Option.isNone_eq_false_iff] at ho
      obtain ⟨ov, hov⟩ := Option.isSome_iff_exists.mp ho
      cases hcase : ov with
      | arr o =>
        rw [hcase] at hov
        rw [validate_question_obj_unfold f h1 o hov]
        by_cases hlen : o.length = 4
        · rw [if_neg (by omega)]
          by_cases hhash : o.all qHashable = true
          · rw [if_neg (by simp [hhash])]
            by_cases hset : setSize o = 4
            · rw [if_neg (by omega)]
              by_cases hany : (o.any (fun e => pyEq e (jGet (.obj f) "answer"))) = true
              · rw [if_neg (by simp [hany])]
                exact Or.inl rfl
              · rw [if_pos (by simpa using hany)]
                exact Or.inr (Or.inl ⟨_, rfl, by decide⟩)
            · rw [if_pos (by omega)]
              exact Or.inr (Or.inl ⟨_, rfl, by decide⟩)
          · rw [if_pos (by simpa using hhash)]
            refine Or.inr (Or.inr ⟨rfl, f, o, ?_⟩)
            obtain ⟨x, hx, hxh⟩ := List.all_eq_false.mp (by simpa using hhash)
            exact ⟨x, rfl, hov, hx, by simpa using hxh⟩
        · rw [if_pos (by omega)]
          exact Or.inr (Or.inl ⟨_, rfl, by decide⟩)
      | null =>
        subst hcase
        rw [validate_question_obj_notarr f h1 _ hov (by intro o h; exact absurd h (by simp))]
        exact Or.inr (Or.inl ⟨_, rfl, by decide⟩)
      | bool b =>
        subst hcase
        rw [validate_question_obj_notarr f h1 _ hov (by intro o h; exact absurd h (by simp))]
        exact Or.inr (Or.inl ⟨_, rfl, by decide⟩)
      | num n =>
        subst hcase
        rw [validate_question_obj_notarr f h1 _ hov (by intro o h; exact absurd h (by simp))]
        exact Or.inr (Or.inl ⟨_, rfl, by decide⟩)
      | str s =>
        subst hcase
        rw [validate_question_obj_notarr f h1 _ hov (by intro o h; exact absurd h (by simp))]
        exact Or.inr (Or.inl ⟨_, rfl, by decide⟩)
      | obj g2 =>
        subst hcase
        rw [validate_question_obj_notarr f h1 _ hov (by intro o h; exact absurd h (by simp))]
        exact Or.inr (Or.inl ⟨_, rfl, by decide⟩)
  | null =>
    exact Or.inr (Or.inl ⟨"Invalid question format.", by simp [validate_question], by decide⟩)
  | bool b =>
    exact Or.inr (Or.inl ⟨"Invalid question format.", by simp [validate_question], by decide⟩)
  | num n =>
    exact Or.inr (Or.inl ⟨"Invalid question format.", by simp [validate_question], by decide⟩)
  | str s =>
    exact Or.inr (Or.inl ⟨"Invalid question format.", by simp [validate_question], by decide⟩)
  | arr xs =>
    exact Or.inr (Or.inl ⟨"Invalid question format.", by simp [validate_question], by decide⟩)

lemma validate_questions_taxonomy (qs : List JVal) :
    validate_questions qs = .ok ()
    ∨ (∃ m, validate_questions qs = .error (.valueError m) ∧ m ∈ validationTaxonomy)
    ∨ (validate_questions qs = .error (.otherError "TypeError: unhashable type")
       ∧ ∃ q g o x, q ∈ qs ∧ q = .obj g ∧ jLookup g "question_options" = some (.arr o)
           ∧ x ∈ o ∧ qHashable x = false) := by
  induction qs with
  | nil => exact Or.inl rfl
  | cons q rest ih =>
    rcases validate_question_taxonomy q with hq | ⟨m, hq, hm⟩ | ⟨hq, g, o, x, hg, hgo, hx, hxh⟩
    · have hstep : validate_questions (q :: rest) = validate_questions rest := by
        simp [validate_questions, hq]
      rw [hstep]
      rcases ih with h | ⟨m, h, hm⟩ | ⟨h, q', g, o, x, hq', rest'⟩
      · exact Or.inl h
      · exact Or.inr (Or.inl ⟨m, h, hm⟩)
      · exact Or.inr (Or.inr ⟨h, q', g, o, x, List.mem_cons_of_mem q hq', rest'⟩)
    · refine Or.inr (Or.inl ⟨m, ?_, hm⟩)
      simp [validate_questions, hq]
    · refine Or.inr (Or.inr ⟨?_, q, g, o, x, List.mem_cons_self q rest, hg, hgo, hx, hxh⟩)
      simp [validate_questions, hq]

/-- C7 (amended): the validation messages are pairwise distinct, and
every run of the validator either succeeds, or raises a `ValueError`
whose message belongs to the fixed taxonomy, or - only when a question
carries an unhashable (array/object) option that survives the earlier
checks - raises a `TypeError` from `set(opts)`, which the view
surfaces as a server error rather than via the taxonomy. -/
theorem validate_error_taxonomy :
    List.Pairwise (fun a b : String => a ≠ b) validationTaxonomy
    ∧ ∀ d, validate_quiz_data d = .ok ()
        ∨ (∃ m, validate_quiz_data d = .error (.valueError m) ∧ m ∈ validationTaxonomy)
        ∨ (validate_quiz_data d = .error (.otherError "TypeError: unhashable type")
           ∧ HasUnhashableOption d) := by
  refine ⟨by decide, fun d => ?_⟩
  cases d with
  | obj f =>
    by_cases h1 : ((jLookup f "title").isNone || (jLookup f "description").isNone
        || (jLookup f "questions").isNone) = true
    · refine Or.inr (Or.inl ⟨"Missing required quiz fields.", ?_, by decide⟩)
      simp only [validate_quiz_data]
      rw [if_pos h1]
    · have h1' := h1
      simp only [Bool.or_eq_true, not_or, Bool.not_eq_true] at h1'
      obtain ⟨⟨ht, hd⟩, hq⟩ := h1'
      rw [Option.isNone_eq_false_iff] at hq
      obtain ⟨qv, hqv⟩ := Option.isSome_iff_exists.mp hq
      cases hcase : qv with
      | arr qs =>
        rw [hcase] at hqv
        rw [validate_quiz_obj_unfold f h1 qs hqv]
        by_cases hlen : qs.length = 10
        · rw [if_neg (by omega)]
          rcases validate_questions_taxonomy qs with h | ⟨m, h, hm⟩ |
              ⟨h, q, g, o, x, hq2, hg, hgo, hx, hxh⟩
          · exact Or.inl h
          · exact Or.inr (Or.inl ⟨m, h, hm⟩)
          · exact Or.inr (Or.inr ⟨h, f, qs, q, g, o, x, rfl, hqv, hq2, hg, hgo, hx, hxh⟩)
        · rw [if_pos (by omega)]
          exact Or.inr (Or.inl ⟨_, rfl, by decide⟩)
      | null =>
        subst hcase
        rw [validate_quiz_obj_notarr f h1 _ hqv (by intro qs h; exact absurd h (by simp))]
        exact Or.inr (Or.inl ⟨_, rfl, by decide⟩)
      | bool b =>
        subst hcase
        rw [validate_quiz_obj_notarr f h1 _ hqv (by intro qs h; exact absurd h (by simp))]
        exact Or.inr (Or.inl ⟨_, rfl, by decide⟩)
      | num n =>
        subst hcase
        rw [validate_quiz_obj_notarr f h1 _ hqv (by intro qs h; exact absurd h (by simp))]
        exact Or.inr (Or.inl ⟨_, rfl, by decide⟩)
      | str s =>
        subst hcase
        rw [validate_quiz_obj_notarr f h1 _ hqv (by intro qs h; exact absurd h (by simp))]
        exact Or.inr (Or.inl ⟨_, rfl, by decide⟩)
      | obj g2 =>
        subst hcase
        rw [validate_quiz_obj_notarr f h1 _ hqv (by intro qs h; exact absurd h (by simp))]
        exact Or.inr (Or.inl ⟨_, rfl, by decide⟩)
  | null =>
    exact Or.inr (Or.inl ⟨"Invalid quiz format.", by simp [validate_quiz_data], by decide⟩)
  | bool b =>
    exact Or.inr (Or.inl ⟨"Invalid quiz format.", by simp [validate_quiz_data], by decide⟩)
  | num n =>
    exact Or.inr (Or.inl ⟨"Invalid quiz format.", by simp [validate_quiz_data], by decide⟩)
  | str s =>
    exact Or.inr (Or.inl ⟨"Invalid quiz format.", by simp [validate_quiz_data], by decide⟩)
  | arr xs =>
    exact Or.inr (Or.inl ⟨"Invalid quiz format.", by simp [validate_quiz_data], by decide⟩)

/-- A second draft with an unhashable (object) option, reaching the
`set(opts)` call with every earlier check satisfied. -/
def demoUnhashableOptionsQuiz : JVal :=
  .obj [("title", .null), ("description", .str "d"),
        ("questions", .arr (List.replicate 10 (.obj
          [("question_title", .str "q"),
           ("question_options", .arr [.obj [], .num 1, .num 2, .num 3]),
           ("answer", .num 1)])))]

/-- C7 (counterexample): on `demoUnhashableOptionsQuiz` the validator
raises `TypeError` (a non-`ValueError` exception, surfaced by the view
as HTTP 500), so not every rejection goes through the `ValueError`
message taxonomy. -/
theorem validate_error_kind_counterexample :
    validate_quiz_data demoUnhashableOptionsQuiz
      = .error (.otherError "TypeError: unhashable type")
    ∧ (∀ m, validate_quiz_data demoUnhashableOptionsQuiz ≠ .error (.valueError m))
    ∧ viewStatus (.error (.otherError "TypeError: unhashable type")) = 500 := by
  refine ⟨rfl, ?_, rfl⟩
  intro m h
  rw [show validate_quiz_data demoUnhashableOptionsQuiz
      = .error (.otherError "TypeError: unhashable type") from rfl] at h
  exact absurd h (by simp)

/-! ### Specification-side characterization of the URL normalizer -/

/-- The specification's condition at one position `j` of the input:
a `v=` or `youtu.be/` marker starts at `j` and the maximal run of
characters from `[A-Za-z0-9_-]` after it has length at least 6. -/
def SpecTokenAt (s : List Char) (j : Nat) : Prop :=
  ((s.drop j).take 2 = "v=".toList
      ∧ 6 ≤ (((s.drop j).drop 2).takeWhile isIdChar).length)
  ∨ ((s.drop j).take 9 = "youtu.be/".toList
      ∧ 6 ≤ (((s.drop j).drop 9).takeWhile isIdChar).length)

/-- The id token at position `j`: the maximal id-character run after
whichever marker starts there. -/
def specIdAt (s : List Char) (j : Nat) : List Char :=
  if (s.drop j).take 2 = "v=".toList then ((s.drop j).drop 2).takeWhile isIdChar
  else ((s.drop j).drop 9).takeWhile isIdChar

lemma marker_take_disjoint (t : List Char) :
    ¬ (t.take 2 = "v=".toList ∧ t.take 9 = "youtu.be/".toList) := by
  rintro ⟨h2, h9⟩
  cases t with
  | nil => simp at h2
  | cons c l =>
    rw [show "v=".toList = ['v', '='] from rfl, List.take_succ_cons,
      List.cons.injEq] at h2
    rw [show "youtu.be/".toList = ['y', 'o', 'u', 't', 'u', '.', 'b', 'e', '/'] from rfl,
      List.take_succ_cons, List.cons.injEq] at h9
    rw [h2.1] at h9
    exact absurd h9.1 (by decide)

lemma matchAt_none_iff (s : List Char) (j : Nat) :
    matchAt (s.drop j) = none ↔ ¬ SpecTokenAt s j := by
  unfold matchAt SpecTokenAt
  by_cases h2 : (s.drop j).take 2 = "v=".toList
  · rw [if_pos h2]
    by_cases hlen : 6 ≤ (((s.drop j).drop 2).takeWhile isIdChar).length
    · rw [if_pos hlen]
      simp only [reduceCtorEq, false_iff, not_not]
      exact Or.inl ⟨h2, hlen⟩
    · rw [if_neg hlen]
      simp only [true_iff]
      rintro (⟨-, h⟩ | ⟨h9, -⟩)
      · exact hlen h
      · exact marker_take_disjoint _ ⟨h2, h9⟩
  · rw [if_neg h2]
    by_cases h9 : (s.drop j).take 9 = "youtu.be/".toList
    · rw [if_pos h9]
      by_cases hlen : 6 ≤ (((s.drop j).drop 9).takeWhile isIdChar).length
      · rw [if_pos hlen]
        simp only [reduceCtorEq, false_iff, not_not]
        exact Or.inr ⟨h9, hlen⟩
      · rw [if_neg hlen]
        simp only [true_iff]
        rintro (⟨h, -⟩ | ⟨-, h⟩)
        · exact h2 h
        · exact hlen h
    · simp only [if_neg h9, true_iff]
      rintro (⟨h, -⟩ | ⟨h, -⟩)
      · exact h2 h
      · exact h9 h

lemma matchAt_some_of_spec (s : List Char) (j : Nat) (h : SpecTokenAt s j) :
    matchAt (s.drop j) = some (specIdAt s j) := by
  unfold matchAt specIdAt
  by_cases h2 : (s.drop j).take 2 = "v=".toList
  · rw [if_pos h2, if_pos h2]
    rcases h with ⟨-, hlen⟩ | ⟨h9, -⟩
    · rw [if_pos hlen]
    · exact absurd ⟨h2, h9⟩ (marker_take_disjoint _)
  · rw [if_neg h2, if_neg h2]
    rcases h with ⟨hv, -⟩ | ⟨h9, hlen⟩
    · exact absurd hv h2
    · rw [if_pos h9, if_pos hlen]

lemma matchAt_some_facts (t id : List Char) (h : matchAt t = some id) :
    (∀ c ∈ id, isIdChar c = true) ∧ 6 ≤ id.length := by
  unfold matchAt at h
  by_cases h2 : t.take 2 = "v=".toList
  · rw [if_pos h2] at h
    by_cases hlen : 6 ≤ ((t.drop 2).takeWhile isIdChar).length
    · rw [if_pos hlen] at h
      obtain rfl : (t.drop 2).takeWhile isIdChar = id := by injection h
      exact ⟨fun c hc => List.mem_takeWhile_imp hc, hlen⟩
    · rw [if_neg hlen] at h
      exact absurd h (by simp)
  · rw [if_neg h2] at h
    by_cases h9 : t.take 9 = "youtu.be/".toList
    · rw [if_pos h9] at h
      by_cases hlen : 6 ≤ ((t.drop 9).takeWhile isIdChar).length
      · rw [if_pos hlen] at h
        obtain rfl : (t.drop 9).takeWhile isIdChar = id := by injection h
        exact ⟨fun c hc => List.mem_takeWhile_imp hc, hlen⟩
      · rw [if_neg hlen] at h
        exact absurd h (by simp)
    · rw [if_neg h9] at h
      exact absurd h (by simp)

lemma reSearchVid_none_iff (s : List Char) :
    reSearchVid s = none ↔ ∀ j, matchAt (s.drop j) = none := by
  induction s with
  | nil =>
    simp only [reSearchVid, true_iff]
    intro j
    rw [List.drop_nil]
    decide
  | cons c rest ih =>
    simp only [reSearchVid]
    cases hm : matchAt (c :: rest) with
    | some r =>
      simp only [reduceCtorEq, false_iff, not_forall]
      exact ⟨0, by rw [List.drop_zero, hm]; simp⟩
    | none =>
      rw [ih]
      constructor
      · intro hall j
        cases j with
        | zero => rw [List.drop_zero]; exact hm
        | succ j' => rw [List.drop_succ_cons]; exact hall j'
      · intro hall j
        have := hall (j + 1)
        rwa [List.drop_succ_cons] at this

lemma reSearchVid_some_of (s : List Char) (i : Nat) (id : List Char)
    (hm : matchAt (s.drop i) = some id)
    (hmin : ∀ j, j < i → matchAt (s.drop j) = none) :
    reSearchVid s = some id := by
  induction s generalizing i with
  | nil =>
    rw [List.drop_nil, show matchAt [] = none from by decide] at hm
    exact absurd hm (by simp)
  | cons c rest ih =>
    cases i with
    | zero =>
      rw [List.drop_zero] at hm
      simp [reSearchVid, hm]
    | succ i' =>
      have h0 := hmin 0 (Nat.succ_pos i')
      rw [List.drop_zero] at h0
      rw [List.drop_succ_cons] at hm
      simp only [reSearchVid, h0]
      exact ih i' hm fun j hj => by
        have := hmin (j + 1) (by omega)
        rwa [List.drop_succ_cons] at this

lemma reSearchVid_some_facts (s id : List Char) (h : reSearchVid s = some id) :
    (∀ c ∈ id, isIdChar c = true) ∧ 6 ≤ id.length := by
  induction s with
  | nil => exact absurd h (by simp [reSearchVid])
  | cons c rest ih =>
    simp only [reSearchVid] at h
    cases hm : matchAt (c :: rest) with
    | some r =>
      rw [hm] at h
      obtain rfl : r = id := by injection h
      exact matchAt_some_facts _ _ hm
    | none =>
      rw [hm] at h
      exact ih h

/-- C2: the normalizer returns nothing exactly when no position of the
input carries a marker followed by a 6-or-longer id token; and when
`i` is the first position carrying one, the result is the fixed-form
canonical URL built from that position's token. -/
theorem normalize_characterization (url : String) :
    (normalize_youtube_url url = none ↔ ∀ j, ¬ SpecTokenAt url.toList j)
    ∧ ∀ i, SpecTokenAt url.toList i → (∀ j, j < i → ¬ SpecTokenAt url.toList j) →
        normalize_youtube_url url
          = some ("https://www.youtube.com/watch?v="
              ++ String.mk (specIdAt url.toList i)) := by
  constructor
  · unfold normalize_youtube_url
    rw [Option.map_eq_none', reSearchVid_none_iff]
    constructor
    · intro hall j
      exact (matchAt_none_iff url.toList j).mp (hall j)
    · intro hall j
      exact (matchAt_none_iff url.toList j).mpr (hall j)
  · intro i hi hmin
    have hm := matchAt_some_of_spec url.toList i hi
    have hs : reSearchVid url.toList = some (specIdAt url.toList i) :=
      reSearchVid_some_of _ i _ hm
        fun j hj => (matchAt_none_iff url.toList j).mpr (hmin j hj)
    unfold normalize_youtube_url
    rw [hs]
    rfl

instance (s : List Char) (j : Nat) : Decidable (SpecTokenAt s j) := by
  unfold SpecTokenAt
  infer_instance

/-- C2 (witness): on `https://youtu.be/dQw4w9WgXcQ` the first marker
position is 8, and the normalizer produces the canonical URL built
from its token. -/
theorem normalize_characterization_witness :
    SpecTokenAt ("https://youtu.be/dQw4w9WgXcQ".toList) 8
    ∧ (∀ j, j < 8 → ¬ SpecTokenAt ("https://youtu.be/dQw4w9WgXcQ".toList) j)
    ∧ normalize_youtube_url "https://youtu.be/dQw4w9WgXcQ"
        = some ("https://www.youtube.com/watch?v="
            ++ String.mk (specIdAt ("https://youtu.be/dQw4w9WgXcQ".toList) 8)) :=
  ⟨by decide, by decide,
    (normalize_characterization "https://youtu.be/dQw4w9WgXcQ").2 8 (by decide) (by decide)⟩

lemma reSearchVid_cons_of_none (c : Char) (l : List Char)
    (h : matchAt (c :: l) = none) : reSearchVid (c :: l) = reSearchVid l := by
  simp [reSearchVid, h]

lemma matchAt_fail_of_head (c : Char) (l : List Char)
    (hv : c ≠ 'v') (hy : c ≠ 'y') : matchAt (c :: l) = none := by
  unfold matchAt
  rw [if_neg, if_neg]
  · intro hc
    rw [show "youtu.be/".toList = ['y', 'o', 'u', 't', 'u', '.', 'b', 'e', '/'] from rfl,
      List.take_succ_cons, List.cons.injEq] at hc
    exact hy hc.1
  · intro hc
    rw [show "v=".toList = ['v', '='] from rfl,
      List.take_succ_cons, List.cons.injEq] at hc
    exact hv hc.1

lemma matchAt_fail_youtub (l : List Char) :
    matchAt ('y' :: 'o' :: 'u' :: 't' :: 'u' :: 'b' :: l) = none := by
  unfold matchAt
  rw [if_neg, if_neg]
  · intro hc
    rw [show "youtu.be/".toList = ['y', 'o', 'u', 't', 'u', '.', 'b', 'e', '/'] from rfl,
      List.take_succ_cons, List.take_succ_cons, List.take_succ_cons, List.take_succ_cons,
      List.take_succ_cons, List.take_succ_cons, List.cons.injEq, List.cons.injEq,
      List.cons.injEq, List.cons.injEq, List.cons.injEq, List.cons.injEq] at hc
    exact absurd hc.2.2.2.2.2.1 (by decide)
  · intro hc
    rw [show "v=".toList = ['v', '='] from rfl,
      List.take_succ_cons, List.cons.injEq] at hc
    exact absurd hc.1 (by decide)

lemma matchAt_veq (id : List Char) (hall : ∀ c ∈ id, isIdChar c = true)
    (hlen : 6 ≤ id.length) : matchAt ('v' :: '=' :: id) = some id := by
  unfold matchAt
  rw [if_pos (by rfl)]
  have hdrop : ('v' :: '=' :: id).drop 2 = id := rfl
  rw [hdrop, List.takeWhile_eq_self_iff.mpr hall, if_pos hlen]

lemma reSearchVid_canonical (id : List Char) (hall : ∀ c ∈ id, isIdChar c = true)
    (hlen : 6 ≤ id.length) :
    reSearchVid ("https://www.youtube.com/watch?v=".toList ++ id) = some id := by
  have hpre : "https://www.youtube.com/watch?v=".toList =
      ['h', 't', 't', 'p', 's', ':', '/', '/', 'w', 'w', 'w', '.', 'y', 'o', 'u',
       't', 'u', 'b', 'e', '.', 'c', 'o', 'm', '/', 'w', 'a', 't', 'c', 'h', '?',
       'v', '='] := rfl
  rw [hpre]
  simp only [List.cons_append, List.nil_append]
  repeat rw [reSearchVid_cons_of_none _ _ (matchAt_fail_of_head _ _ (by decide) (by decide))]
  rw [reSearchVid_cons_of_none _ _ (matchAt_fail_youtub _)]
  repeat rw [reSearchVid_cons_of_none _ _ (matchAt_fail_of_head _ _ (by decide) (by decide))]
  simp [reSearchVid, matchAt_veq id hall hlen]

/-- C9: URL normalization is idempotent - whenever the normalizer
succeeds, running it on its own canonical output succeeds and returns
that same canonical URL. -/
theorem normalize_idempotent (url u : String)
    (h : normalize_youtube_url url = some u) :
    normalize_youtube_url u = some u := by
  unfold normalize_youtube_url at h
  obtain ⟨id, hid, hu⟩ := Option.map_eq_some'.mp h
  obtain ⟨hall, hlen⟩ := reSearchVid_some_facts _ _ hid
  subst hu
  unfold normalize_youtube_url
  have htl : ("https://www.youtube.com/watch?v=" ++ String.mk id).toList
      = "https://www.youtube.com/watch?v=".toList ++ id := rfl
  rw [htl, reSearchVid_canonical id hall hlen]
  rfl

/-- C9 (witness): idempotence applied at the concrete input
`v=abc123`. -/
theorem normalize_idempotent_witness :
    normalize_youtube_url "https://www.youtube.com/watch?v=abc123"
      = some "https://www.youtube.com/watch?v=abc123" :=
  normalize_idempotent "v=abc123" "https://www.youtube.com/watch?v=abc123" (by decide)

/-! ### Fence-stripping round trip -/

/-- The backtick character (written via its code point). -/
def backquote : Char := '\x60'

lemma fenceDelim_eq : fenceDelim = [backquote, backquote, backquote] := rfl

lemma dropWhile_self (p : Char → Bool) (l : List Char) :
    (l.dropWhile p).dropWhile p = l.dropWhile p := by
  induction l with
  | nil => rfl
  | cons c t ih =>
    by_cases h : p c
    · simp [List.dropWhile_cons, h, ih]
    · simp [List.dropWhile_cons, h]

lemma head_false_of_dropWhile_eq (p : Char → Bool) (c : Char) (t : List Char)
    (h : (c :: t).dropWhile p = c :: t) : p c = false := by
  by_contra hc
  rw [Bool.not_eq_false] at hc
  rw [List.dropWhile_cons, if_pos hc] at h
  have hl := (List.dropWhile_sublist (l := t) p).length_le
  have := congrArg List.length h
  simp only [List.length_cons] at this
  omega

lemma pyStrip_sandwich (c d : Char) (m : List Char)
    (hc : pyIsSpace c = false) (hd : pyIsSpace d = false) :
    pyStrip (c :: (m ++ [d])) = c :: (m ++ [d]) := by
  unfold pyStrip
  rw [List.dropWhile_cons, if_neg (by simp [hc])]
  rw [show (c :: (m ++ [d])).reverse = d :: (m.reverse ++ [c]) from by simp]
  rw [List.dropWhile_cons, if_neg (by simp [hd])]
  simp

lemma pyStrip_ltrimmed (l : List Char) :
    (pyStrip l).dropWhile pyIsSpace = pyStrip l := by
  unfold pyStrip
  cases hA : l.dropWhile pyIsSpace with
  | nil => simp
  | cons c t =>
    have hc : pyIsSpace c = false := by
      have hself := dropWhile_self pyIsSpace l
      rw [hA] at hself
      exact head_false_of_dropWhile_eq pyIsSpace c t hself
    rw [List.reverse_cons]
    rw [List.dropWhile_append]
    by_cases he : (t.reverse.dropWhile pyIsSpace).isEmpty = true
    · rw [if_pos he]
      rw [List.dropWhile_cons, if_neg (by simp [hc])]
      simp [List.dropWhile_cons, hc]
    · rw [if_neg he]
      rw [List.reverse_append]
      rw [show ([c] : List Char).reverse = [c] from rfl]
      rw [show ([c] : List Char) ++ (t.reverse.dropWhile pyIsSpace).reverse
          = c :: (t.reverse.dropWhile pyIsSpace).reverse from rfl]
      rw [List.dropWhile_cons, if_neg (by simp [hc])]

lemma pyStrip_idem (l : List Char) : pyStrip (pyStrip l) = pyStrip l := by
  conv_lhs => rw [pyStrip]
  rw [pyStrip_ltrimmed l]
  rw [show (pyStrip l).reverse = (l.dropWhile pyIsSpace).reverse.dropWhile pyIsSpace from by
    rw [pyStrip, List.reverse_reverse]]
  rw [dropWhile_self]
  rw [pyStrip]

lemma pyStripStr_idem (s : String) : pyStripStr (pyStripStr s) = pyStripStr s := by
  unfold pyStripStr
  rw [show (String.mk (pyStrip s.toList)).toList = pyStrip s.toList from rfl, pyStrip_idem]

lemma strip_json_fences_wrap (lang t : String)
    (hlang : ∀ c ∈ lang.toList, Char.isAlpha c = true) :
    strip_json_fences ("```" ++ lang ++ "\n" ++ t ++ "\n```") = pyStripStr t := by
  have hbq : pyIsSpace backquote = false := by decide
  have hW : ("```" ++ lang ++ "\n" ++ t ++ "\n```").toList
      = backquote :: backquote :: backquote ::
        (lang.toList ++ ('\n' :: (t.toList ++ ['\n', backquote, backquote, backquote]))) := by
    rw [show ("```" ++ lang ++ "\n" ++ t ++ "\n```").toList
        = ((("```".toList ++ lang.toList) ++ "\n".toList) ++ t.toList) ++ "\n```".toList from rfl]
    simp only [show "```".toList = [backquote, backquote, backquote] from rfl,
      show "\n".toList = ['\n'] from rfl,
      show "\n```".toList = ['\n', backquote, backquote, backquote] from rfl,
      List.append_assoc, List.cons_append, List.nil_append]
  have hsand : pyStrip (backquote :: backquote :: backquote ::
      (lang.toList ++ ('\n' :: (t.toList ++ ['\n', backquote, backquote, backquote]))))
      = backquote :: backquote :: backquote ::
        (lang.toList ++ ('\n' :: (t.toList ++ ['\n', backquote, backquote, backquote]))) := by
    have h := pyStrip_sandwich backquote backquote
      (backquote :: backquote ::
        (lang.toList ++ ('\n' :: (t.toList ++ ['\n', backquote, backquote])))) hbq hbq
    rw [show backquote :: ((backquote :: backquote ::
        (lang.toList ++ ('\n' :: (t.toList ++ ['\n', backquote, backquote])))) ++ [backquote])
        = backquote :: backquote :: backquote ::
          (lang.toList ++ ('\n' :: (t.toList ++ ['\n', backquote, backquote, backquote])))
      from by simp] at h
    exact h
  have hlangdrop : lang.toList.dropWhile Char.isAlpha = [] :=
    List.dropWhile_eq_nil_iff.mpr fun x hx => by simp [hlang x hx]
  have htake : (backquote :: backquote :: backquote ::
      (lang.toList ++ ('\n' :: (t.toList ++ ['\n', backquote, backquote, backquote])))).take 3
      = fenceDelim := rfl
  have hdrop3 : (backquote :: backquote :: backquote ::
      (lang.toList ++ ('\n' :: (t.toList ++ ['\n', backquote, backquote, backquote])))).drop 3
      = lang.toList ++ ('\n' :: (t.toList ++ ['\n', backquote, backquote, backquote])) := rfl
  have halpha : (lang.toList ++ ('\n' :: (t.toList
      ++ ['\n', backquote, backquote, backquote]))).dropWhile Char.isAlpha
      = '\n' :: (t.toList ++ ['\n', backquote, backquote, backquote]) := by
    rw [List.dropWhile_append, if_pos (by rw [hlangdrop]; rfl)]
    rw [List.dropWhile_cons, if_neg (by decide)]
  have hnlspace : ('\n' :: (t.toList
      ++ ['\n', backquote, backquote, backquote])).dropWhile pyIsSpace
      = (t.toList ++ ['\n', backquote, backquote, backquote]).dropWhile pyIsSpace := by
    rw [List.dropWhile_cons, if_pos (by decide)]
  simp only [strip_json_fences, hW, hsand, htake, hdrop3, halpha, hnlspace,
    eq_self_iff_true, if_true]
  cases hT : t.toList.dropWhile pyIsSpace with
  | nil =>
    have hRd : (t.toList ++ ['\n', backquote, backquote, backquote]).dropWhile pyIsSpace
        = [backquote, backquote, backquote] := by
      rw [List.dropWhile_append, if_pos (by rw [hT]; rfl)]
      decide
    have hfin : pyStrip t.toList = [] := by
      unfold pyStrip
      rw [hT]
      rfl
    simp only [hRd]
    rw [if_pos (by decide)]
    rw [show ((([backquote, backquote, backquote] : List Char).reverse.drop 3).dropWhile
        pyIsSpace).reverse = [] from by decide]
    unfold pyStripStr
    rw [hfin]
    rfl
  | cons c cs =>
    have hc : pyIsSpace c = false := by
      have hself := dropWhile_self pyIsSpace t.toList
      rw [hT] at hself
      exact head_false_of_dropWhile_eq pyIsSpace c cs hself
    have hRd : (t.toList ++ ['\n', backquote, backquote, backquote]).dropWhile pyIsSpace
        = (c :: cs) ++ ['\n', backquote, backquote, backquote] := by
      rw [List.dropWhile_append, if_neg (by rw [hT]; simp), hT]
    have hrev : ((c :: cs) ++ ['\n', backquote, backquote, backquote]).reverse
        = backquote :: backquote :: backquote :: '\n' :: (c :: cs).reverse := by
      simp
    have ht2 : ((backquote :: backquote :: backquote :: '\n'
        :: (c :: cs).reverse).drop 3).dropWhile pyIsSpace
        = (c :: cs).reverse.dropWhile pyIsSpace := by
      rw [show (backquote :: backquote :: backquote :: '\n' :: (c :: cs).reverse).drop 3
          = '\n' :: (c :: cs).reverse from rfl]
      rw [List.dropWhile_cons, if_pos (by decide)]
    have hps : ((c :: cs).reverse.dropWhile pyIsSpace).reverse = pyStrip t.toList := by
      unfold pyStrip
      rw [hT]
    simp only [hRd, hrev, ht2]
    rw [if_pos (show List.take 3 (backquote :: backquote :: backquote :: '\n'
        :: (c :: cs).reverse) = fenceDelim from rfl)]
    rw [hps, pyStrip_idem]
    rfl

lemma strip_json_fences_nofence (text : String)
    (h : ¬ (pyStrip text.toList).take 3 = fenceDelim) :
    strip_json_fences text = pyStripStr text := by
  simp only [strip_json_fences]
  rw [if_neg h]
  rfl

/-- C6: wrapping structured text in an opening fence line (three
backticks, optionally a language tag) and a closing bare fence, then
stripping, parses identically to the unwrapped text, for any parser
that is insensitive to surrounding whitespace; and text whose stripped
form does not start with a fence is passed to the parser unchanged
apart from surrounding whitespace. -/
theorem strip_json_fences_roundtrip (lang t : String)
    (hlang : ∀ c ∈ lang.toList, Char.isAlpha c = true)
    (parse : String → Option JVal)
    (hparse : ∀ s, parse (pyStripStr s) = parse s) :
    parse (strip_json_fences ("```" ++ lang ++ "\n" ++ t ++ "\n```")) = parse t
    ∧ ∀ text, ¬ (pyStrip text.toList).take 3 = fenceDelim →
        parse (strip_json_fences text) = parse text := by
  constructor
  · rw [strip_json_fences_wrap lang t hlang]
    exact hparse t
  · intro text h
    rw [strip_json_fences_nofence text h]
    exact hparse text

/-- A concrete whitespace-insensitive parser used to witness the
round-trip theorem. -/
def demoParse (s : String) : Option JVal := some (.str (pyStripStr s))

lemma demoParse_strip (s : String) : demoParse (pyStripStr s) = demoParse s := by
  unfold demoParse
  rw [pyStripStr_idem]

/-- C6 (witness): the round trip applied to the tagged wrapping of
`[1, 2, 3]`. -/
theorem strip_json_fences_roundtrip_witness :
    demoParse (strip_json_fences ("```" ++ "json" ++ "\n" ++ "[1, 2, 3]" ++ "\n```"))
      = demoParse "[1, 2, 3]" :=
  (strip_json_fences_roundtrip "json" "[1, 2, 3]" (by decide) demoParse demoParse_strip).1

/-! ### Persister: atomicity and success shape -/

lemma dictGet_eq_jGet (f : List (String × JVal)) (k : String)
    (h : (jLookup f k).isSome = true) :
    dictGet (.obj f) k = .ok (jGet (.obj f) k) := by
  obtain ⟨v, hv⟩ := Option.isSome_iff_exists.mp h
  simp [dictGet, jGet, hv]

lemma jLookup_questions_of_jGet (f : List (String × JVal)) (qs : List JVal)
    (h : jGet (.obj f) "questions" = .arr qs) :
    jLookup f "questions" = some (.arr qs) := by
  cases hl : jLookup f "questions" with
  | none => rw [jGet, hl] at h; exact absurd h (by simp)
  | some v => rw [jGet, hl, Option.getD_some] at h; rw [h]

lemma insertQuestions_ok (quizId : Nat) (qs : List JVal) (idx : Nat) (db : DB)
    (hq : ∀ q ∈ qs, QuestionAcceptsPy q) :
    insertQuestions quizId none qs idx db
      = .ok { db with questions := db.questions ++ draftQuestionRows quizId qs } := by
  induction qs generalizing idx db with
  | nil => simp [insertQuestions, draftQuestionRows]
  | cons q rest ih =>
    obtain ⟨f, rfl, ht, ho, ha, -⟩ := hq _ (List.mem_cons_self _ rest)
    have hstep := ih (idx + 1)
      { db with questions := db.questions
          ++ [⟨quizId, jGet (.obj f) "question_title", jGet (.obj f) "question_options",
               jGet (.obj f) "answer"⟩] }
      (fun x hx => hq x (List.mem_cons_of_mem _ hx))
    simp [insertQuestions, dictGet_eq_jGet f _ ht, dictGet_eq_jGet f _ ho,
      dictGet_eq_jGet f _ ha, hstep, draftQuestionRows]

lemma insertQuestions_fault (quizId k : Nat) (qs : List JVal) (idx : Nat) (db : DB)
    (hk1 : idx ≤ k) (hk2 : k < idx + qs.length) :
    ∃ e, insertQuestions quizId (some k) qs idx db = .error e := by
  induction qs generalizing idx db with
  | nil => simp only [List.length_nil] at hk2; omega
  | cons q rest ih =>
    by_cases hik : k = idx
    · subst hik
      exact ⟨.otherError "storage fault", by simp [insertQuestions]⟩
    · simp only [insertQuestions]
      rw [if_neg (by simp only [Option.some.injEq]; omega)]
      cases hqt : dictGet q "question_title" with
      | error e => exact ⟨e, by simp [hqt]⟩
      | ok qt =>
        cases hopt : dictGet q "question_options" with
        | error e => exact ⟨e, by simp [hqt, hopt]⟩
        | ok opts =>
          cases hans : dictGet q "answer" with
          | error e => exact ⟨e, by simp [hqt, hopt, hans]⟩
          | ok ans =>
            simp only [hqt, hopt, hans]
            exact ih (idx + 1) _ (by omega) (by simp only [List.length_cons] at hk2; omega)

lemma save_quiz_body_ok (user : Nat) (d : JVal) (url : String) (db : DB)
    (hval : validate_quiz_data d = .ok ()) :
    ∃ qs, jGet d "questions" = .arr qs ∧ qs.length = 10 ∧
      save_quiz_body user d url none db
        = .ok ({ quizzes := db.quizzes
                  ++ [⟨db.quizzes.length, user, jGet d "title", jGet d "description", url⟩],
                 questions := db.questions ++ draftQuestionRows db.quizzes.length qs },
               ⟨db.quizzes.length, user, jGet d "title", jGet d "description", url⟩) := by
  obtain ⟨f, rfl, ht, hd, qs, hqs, hlen, hall⟩ :=
    (validate_quiz_data_characterization d).mp hval
  have hlk := jLookup_questions_of_jGet f qs hqs
  refine ⟨qs, hqs, hlen, ?_⟩
  have hins := insertQuestions_ok db.quizzes.length qs 1
    { db with quizzes := db.quizzes
        ++ [⟨db.quizzes.length, user, jGet (.obj f) "title", jGet (.obj f) "description", url⟩] }
    hall
  simp [save_quiz_body, dictGet_eq_jGet f _ ht, dictGet_eq_jGet f _ hd,
    show dictGet (.obj f) "questions" = .ok (.arr qs) from by simp [dictGet, hlk], hins]

lemma save_quiz_body_fault (user : Nat) (d : JVal) (url : String) (db : DB) (k : Nat)
    (hval : validate_quiz_data d = .ok ()) (hk : k ≤ 10) :
    ∃ e, save_quiz_body user d url (some k) db = .error e := by
  obtain ⟨f, rfl, ht, hd, qs, hqs, hlen, hall⟩ :=
    (validate_quiz_data_characterization d).mp hval
  have hlk := jLookup_questions_of_jGet f qs hqs
  by_cases h0 : k = 0
  · subst h0
    exact ⟨.otherError "storage fault", by simp [save_quiz_body]⟩
  · obtain ⟨e, he⟩ := insertQuestions_fault db.quizzes.length k qs 1
      { db with quizzes := db.quizzes
          ++ [⟨db.quizzes.length, user, jGet (.obj f) "title", jGet (.obj f) "description", url⟩] }
      (by omega) (by omega)
    exact ⟨e, by simp [save_quiz_body, h0, dictGet_eq_jGet f _ ht, dictGet_eq_jGet f _ hd,
      show dictGet (.obj f) "questions" = .ok (.arr qs) from by simp [dictGet, hlk], he]⟩

/-- C3: the persister is all-or-nothing.  For a validated draft, a
storage fault at any of the 11 row writes (`0` the quiz row, `1`-`10`
the question rows) leaves the store exactly as before the call and
reports an error; without a fault, the call appends the quiz row and
its 10 question rows, in draft order, in one step. -/
theorem save_quiz_atomic (user : Nat) (d : JVal) (url : String) (db : DB)
    (hval : validate_quiz_data d = .ok ()) :
    (∀ k, k ≤ 10 →
      (save_quiz_to_database user d url (some k) db).1 = db
      ∧ ∃ e, (save_quiz_to_database user d url (some k) db).2 = .error e)
    ∧ ∃ qs, jGet d "questions" = .arr qs ∧ qs.length = 10
        ∧ save_quiz_to_database user d url none db
          = ({ quizzes := db.quizzes
                ++ [⟨db.quizzes.length, user, jGet d "title", jGet d "description", url⟩],
               questions := db.questions ++ draftQuestionRows db.quizzes.length qs },
             .ok ⟨db.quizzes.length, user, jGet d "title", jGet d "description", url⟩)
        ∧ (draftQuestionRows db.quizzes.length qs).length = 10 := by
  constructor
  · intro k hk
    obtain ⟨e, he⟩ := save_quiz_body_fault user d url db k hval hk
    constructor
    · simp [save_quiz_to_database, he]
    · exact ⟨e, by simp [save_quiz_to_database, he]⟩
  · obtain ⟨qs, hqs, hlen, hbody⟩ := save_quiz_body_ok user d url db hval
    refine ⟨qs, hqs, hlen, ?_, ?_⟩
    · simp [save_quiz_to_database, hbody]
    · simp [draftQuestionRows, hlen]

/-- A well-formed demonstration question. -/
def demoQuestion : JVal :=
  .obj [("question_title", .str "q"),
        ("question_options", .arr [.str "A", .str "B", .str "C", .str "D"]),
        ("answer", .str "B")]

/-- A well-formed demonstration draft with 10 questions. -/
def demoDraft : JVal :=
  .obj [("title", .str "t"), ("description", .str "d"),
        ("questions", .arr (List.replicate 10 demoQuestion))]

/-- The empty store. -/
def dbEmpty : DB := ⟨[], []⟩

/-- C3 (witness): a simulated storage fault while writing question 7
of 10 of a valid draft leaves the store unchanged. -/
theorem save_quiz_atomic_witness :
    (save_quiz_to_database 1 demoDraft "u" (some 7) dbEmpty).1 = dbEmpty
    ∧ ∃ e, (save_quiz_to_database 1 demoDraft "u" (some 7) dbEmpty).2 = .error e :=
  (save_quiz_atomic 1 demoDraft "u" dbEmpty rfl).1 7 (by decide)

/-! ### Orchestrator: end-to-end success, transcript floor, fail-fast -/

/-- C4: with a normalizable URL, a transcript meeting the floor, the
credential set, a non-blank model reply parsing to a draft that passes
validation, and no storage fault, the orchestrator persists exactly
one quiz owned by the requesting user and carrying the canonical URL,
with the draft's 10 questions appended in draft order, and returns
it. -/
theorem create_quiz_end_to_end (env : Env) (user : Nat) (url nu transcript resp : String)
    (draft : JVal) (db : DB)
    (h1 : normalize_youtube_url url = some nu)
    (h2 : env.extract nu = .ok (some transcript))
    (h3 : 50 ≤ (pyStrip transcript.toList).length)
    (h4 : env.apiKeySet = true)
    (h5 : env.ai (build_gemini_quiz_prompt transcript) = .ok (some resp))
    (h6 : pyStrip resp.toList ≠ [])
    (h7 : env.jsonParse (strip_json_fences (String.mk (pyStrip resp.toList))) = .ok draft)
    (h8 : validate_quiz_data draft = .ok ())
    (h9 : env.fault = none) :
    ∃ qs, jGet draft "questions" = .arr qs ∧ qs.length = 10
      ∧ create_quiz_from_youtube env user url db
        = ({ quizzes := db.quizzes
              ++ [⟨db.quizzes.length, user, jGet draft "title", jGet draft "description", nu⟩],
             questions := db.questions ++ draftQuestionRows db.quizzes.length qs },
           .ok ⟨db.quizzes.length, user, jGet draft "title", jGet draft "description", nu⟩)
      ∧ draftQuestionRows db.quizzes.length qs
          = qs.map (fun q => ⟨db.quizzes.length, jGet q "question_title",
              jGet q "question_options", jGet q "answer"⟩) := by
  have hgen : generate_quiz_content env transcript = .ok draft := by
    simp [generate_quiz_content, h4, h5,
      show pyStrip resp.data ≠ [] from h6,
      show env.jsonParse (strip_json_fences ⟨pyStrip resp.data⟩) = .ok draft from h7]
  obtain ⟨qs, hqs, hlen, hsaveEq, -⟩ := (save_quiz_atomic user draft nu db h8).2
  refine ⟨qs, hqs, hlen, ?_, rfl⟩
  simp only [create_quiz_from_youtube, h1, h2]
  rw [if_neg (by omega)]
  simp only [pipeline_tail, hgen, h8]
  rw [h9]
  exact hsaveEq

/-- A transcript comfortably above the 50-character floor. -/
def demoTranscript : String :=
  "this transcript is long enough to pass the fifty character floor"

/-- The external environment used by the success witness. -/
def demoEnv : Env :=
  { extract := fun _ => .ok (some demoTranscript),
    apiKeySet := true,
    ai := fun _ => .ok (some "ok"),
    jsonParse := fun _ => .ok demoDraft,
    fault := none }

/-- C4 (witness): the end-to-end run on a concrete environment. -/
theorem create_quiz_end_to_end_witness :
    ∃ qs, jGet demoDraft "questions" = .arr qs ∧ qs.length = 10
      ∧ create_quiz_from_youtube demoEnv 1 "v=abc123" dbEmpty
        = ({ quizzes := dbEmpty.quizzes
              ++ [⟨dbEmpty.quizzes.length, 1, jGet demoDraft "title", jGet demoDraft "description",
                   "https://www.youtube.com/watch?v=abc123"⟩],
             questions := dbEmpty.questions
               ++ draftQuestionRows dbEmpty.quizzes.length qs },
           .ok ⟨dbEmpty.quizzes.length, 1, jGet demoDraft "title", jGet demoDraft "description",
             "https://www.youtube.com/watch?v=abc123"⟩)
      ∧ draftQuestionRows dbEmpty.quizzes.length qs
          = qs.map (fun q => ⟨dbEmpty.quizzes.length, jGet q "question_title",
              jGet q "question_options", jGet q "answer"⟩) :=
  create_quiz_end_to_end demoEnv 1 "v=abc123" "https://www.youtube.com/watch?v=abc123"
    demoTranscript "ok" demoDraft dbEmpty (by decide) rfl (by decide) rfl rfl
    (by decide) rfl rfl rfl

/-- C5: a transcript-acquisition result that is absent or below 50
trimmed characters makes the orchestrator abort with the client-facing
(HTTP 400) "No Transcript Found." rejection, leaving the store
untouched, whatever the rest of the environment does; a result meeting
the floor passes the gate and hands control to the rest of the
pipeline.  The acquirer itself already collapses short text to `None`
under the same floor. -/
theorem transcript_floor (env : Env) (user : Nat) (url nu : String)
    (topt : Option String) (db : DB)
    (h1 : normalize_youtube_url url = some nu)
    (h2 : env.extract nu = .ok topt) :
    ((topt = none ∨ ∃ s, topt = some s ∧ (pyStrip s.toList).length < 50) →
        create_quiz_from_youtube env user url db
          = (db, .error (.valueError "No Transcript Found."))
        ∧ viewStatus (.error (.valueError "No Transcript Found.")) = 400)
    ∧ (∀ s, topt = some s → 50 ≤ (pyStrip s.toList).length →
        create_quiz_from_youtube env user url db = pipeline_tail env user nu s db)
    ∧ (∀ w, transcript_postprocess w = none
        ↔ (pyStrip ((w.getD "").toList)).length < 50) := by
  refine ⟨?_, ?_, ?_⟩
  · rintro (rfl | ⟨s, rfl, hshort⟩)
    · exact ⟨by simp [create_quiz_from_youtube, h1, h2], rfl⟩
    · refine ⟨?_, rfl⟩
      simp only [create_quiz_from_youtube, h1, h2]
      rw [if_pos hshort]
  · rintro s rfl hlong
    simp only [create_quiz_from_youtube, h1, h2]
    rw [if_neg (by omega)]
  · intro w
    simp only [transcript_postprocess]
    by_cases h : 50 ≤ (pyStrip ((w.getD "").toList)).length
    · rw [if_pos h]
      constructor
      · intro hc; exact absurd hc (by simp)
      · intro hc; omega
    · rw [if_neg h]
      constructor
      · intro _; omega
      · intro _; rfl

/-- The environment used by the transcript-floor witness: the acquirer
returns a 5-character transcript. -/
def demoShortEnv : Env :=
  { extract := fun _ => .ok (some "short"),
    apiKeySet := true,
    ai := fun _ => .ok none,
    jsonParse := fun _ => .error "no parse",
    fault := none }

/-- C5 (witness): a 5-character transcript aborts with the 400
"No Transcript Found." rejection and an unchanged store. -/
theorem transcript_floor_witness :
    create_quiz_from_youtube demoShortEnv 1 "v=abc123" dbEmpty
      = (dbEmpty, .error (.valueError "No Transcript Found."))
    ∧ viewStatus (.error (.valueError "No Transcript Found.")) = 400 :=
  (transcript_floor demoShortEnv 1 "v=abc123" "https://www.youtube.com/watch?v=abc123"
    (some "short") dbEmpty (by decide) rfl).1 (Or.inr ⟨"short", rfl, by decide⟩)

/-- C8: the orchestrator is fail-fast and single-pass.  Whichever
stage fails first - URL normalization, transcript acquisition (by
exception or by the floor), AI generation, or schema validation -
the call returns that stage's error with the store unchanged, for
every behaviour of the later stages' collaborators (so no later stage
is invoked and nothing is persisted); persistence runs only after all
earlier stages succeed. -/
theorem pipeline_fail_fast (env : Env) (user : Nat) (url : String) (db : DB) :
    (normalize_youtube_url url = none →
        create_quiz_from_youtube env user url db
          = (db, .error (.valueError "Invalid YouTube URL.")))
    ∧ (∀ nu e, normalize_youtube_url url = some nu → env.extract nu = .error e →
        create_quiz_from_youtube env user url db = (db, .error e))
    ∧ (∀ nu, normalize_youtube_url url = some nu → env.extract nu = .ok none →
        create_quiz_from_youtube env user url db
          = (db, .error (.valueError "No Transcript Found.")))
    ∧ (∀ nu s, normalize_youtube_url url = some nu → env.extract nu = .ok (some s) →
        (pyStrip s.toList).length < 50 →
        create_quiz_from_youtube env user url db
          = (db, .error (.valueError "No Transcript Found.")))
    ∧ (∀ nu s e, normalize_youtube_url url = some nu → env.extract nu = .ok (some s) →
        50 ≤ (pyStrip s.toList).length → generate_quiz_content env s = .error e →
        create_quiz_from_youtube env user url db = (db, .error e))
    ∧ (∀ nu s qj e, normalize_youtube_url url = some nu → env.extract nu = .ok (some s) →
        50 ≤ (pyStrip s.toList).length → generate_quiz_content env s = .ok qj →
        validate_quiz_data qj = .error e →
        create_quiz_from_youtube env user url db = (db, .error e)) := by
  refine ⟨?_, ?_, ?_, ?_, ?_, ?_⟩
  · intro h
    simp [create_quiz_from_youtube, h]
  · intro nu e h1 h2
    simp [create_quiz_from_youtube, h1, h2]
  · intro nu h1 h2
    simp [create_quiz_from_youtube, h1, h2]
  · intro nu s h1 h2 hshort
    simp only [create_quiz_from_youtube, h1, h2]
    rw [if_pos hshort]
  · intro nu s e h1 h2 hlong hgen
    simp only [create_quiz_from_youtube, h1, h2]
    rw [if_neg (by omega)]
    simp [pipeline_tail, hgen]
  · intro nu s qj e h1 h2 hlong hgen hvalerr
    simp only [create_quiz_from_youtube, h1, h2]
    rw [if_neg (by omega)]
    simp [pipeline_tail, hgen, hvalerr]

/-- The environment used by the fail-fast witness. -/
def demoFailEnv : Env :=
  { extract := fun _ => .ok none,
    apiKeySet := false,
    ai := fun _ => .ok none,
    jsonParse := fun _ => .error "no parse",
    fault := none }

/-- C8 (witness): an unrecognizable URL aborts the whole pipeline with
the first stage's error and an unchanged store. -/
theorem pipeline_fail_fast_witness :
    create_quiz_from_youtube demoFailEnv 1 "not a url" dbEmpty
      = (dbEmpty, .error (.valueError "Invalid YouTube URL.")) :=
  (pipeline_fail_fast demoFailEnv 1 "not a url" dbEmpty).1 (by decide)

/-! ### Validator ignores field types and extra keys -/

/-- Build a question object with arbitrarily-typed fields and extra
unknown keys appended. -/
def mkQuestion (qt : JVal) (opts : List JVal) (ans : JVal)
    (qextras : List (String × JVal)) : JVal :=
  .obj ([("question_title", qt), ("question_options", .arr opts), ("answer", ans)] ++ qextras)

/-- Build a quiz object with arbitrarily-typed fields and extra
unknown keys appended. -/
def mkQuiz (tv dv : JVal) (qs : List JVal) (extras : List (String × JVal)) : JVal :=
  .obj ([("title", tv), ("description", dv), ("questions", .arr qs)] ++ extras)

/-- C10: the validator checks only structure and membership.  For any
values of `title`, `description`, `question_title` and `answer`
(strings or not), and any extra unknown keys on the quiz or question
objects, a draft whose options are 4 pairwise-distinct hashable items
with the answer among them passes validation, and persisting it stores
those values verbatim. -/
theorem validator_structure_only (tv dv qt ans : JVal) (opts : List JVal)
    (extras qextras : List (String × JVal)) (user : Nat) (url : String) (db : DB)
    (hlen : opts.length = 4)
    (hhash : ∀ x ∈ opts, qHashable x = true)
    (hpw : List.Pairwise (fun a b => pyEq a b = false) opts)
    (hmem : ∃ x ∈ opts, pyEq x ans = true) :
    validate_quiz_data
        (mkQuiz tv dv (List.replicate 10 (mkQuestion qt opts ans qextras)) extras) = .ok ()
    ∧ save_quiz_to_database user
        (mkQuiz tv dv (List.replicate 10 (mkQuestion qt opts ans qextras)) extras) url none db
      = ({ quizzes := db.quizzes ++ [⟨db.quizzes.length, user, tv, dv, url⟩],
           questions := db.questions
             ++ List.replicate 10 ⟨db.quizzes.length, qt, .arr opts, ans⟩ },
         .ok ⟨db.quizzes.length, user, tv, dv, url⟩) := by
  have hqacc : QuestionAcceptsPy (mkQuestion qt opts ans qextras) := by
    refine ⟨_, rfl, ?_, ?_, ?_, opts, ?_, hlen, hhash, hpw, ?_⟩
    · rfl
    · rfl
    · rfl
    · rfl
    · obtain ⟨x, hx, hpx⟩ := hmem
      exact ⟨x, hx, by
        rw [show jGet (mkQuestion qt opts ans qextras) "answer" = ans from rfl]
        exact hpx⟩
  have hval : validate_quiz_data
      (mkQuiz tv dv (List.replicate 10 (mkQuestion qt opts ans qextras)) extras) = .ok () := by
    apply (validate_quiz_data_characterization _).mpr
    refine ⟨_, rfl, rfl, rfl, List.replicate 10 (mkQuestion qt opts ans qextras),
      rfl, by simp, ?_⟩
    intro q hq
    rw [List.eq_of_mem_replicate hq]
    exact hqacc
  refine ⟨hval, ?_⟩
  obtain ⟨qs, hqs, -, hsave, -⟩ := (save_quiz_atomic user _ url db hval).2
  have hqseq : qs = List.replicate 10 (mkQuestion qt opts ans qextras) := by
    rw [show jGet (mkQuiz tv dv (List.replicate 10 (mkQuestion qt opts ans qextras)) extras)
        "questions" = .arr (List.replicate 10 (mkQuestion qt opts ans qextras)) from rfl] at hqs
    injection hqs.symm
  subst hqseq
  rw [show jGet (mkQuiz tv dv (List.replicate 10 (mkQuestion qt opts ans qextras)) extras)
      "title" = tv from rfl,
    show jGet (mkQuiz tv dv (List.replicate 10 (mkQuestion qt opts ans qextras)) extras)
      "description" = dv from rfl] at hsave
  rw [hsave]
  simp [draftQuestionRows, List.map_replicate]
  exact ⟨rfl, rfl, rfl⟩

/-- C10 (witness): a draft whose `title` is `null`, `description` a
number, `question_title` `null` and `answer` a number, with extra
unknown keys on both levels, validates and persists verbatim. -/
theorem validator_structure_only_witness :
    validate_quiz_data
        (mkQuiz .null (.num 5)
          (List.replicate 10 (mkQuestion .null [.num 3, .bool false, .str "a", .null] (.num 3)
            [("extra", .str "x")])) [("unknown", .num 7)]) = .ok ()
    ∧ save_quiz_to_database 1
        (mkQuiz .null (.num 5)
          (List.replicate 10 (mkQuestion .null [.num 3, .bool false, .str "a", .null] (.num 3)
            [("extra", .str "x")])) [("unknown", .num 7)]) "u" none dbEmpty
      = ({ quizzes := dbEmpty.quizzes ++ [⟨dbEmpty.quizzes.length, 1, .null, .num 5, "u"⟩],
           questions := dbEmpty.questions
             ++ List.replicate 10 ⟨dbEmpty.quizzes.length, .null,
                 .arr [.num 3, .bool false, .str "a", .null], .num 3⟩ },
         .ok ⟨dbEmpty.quizzes.length, 1, .null, .num 5, "u"⟩) :=
  validator_structure_only .null (.num 5) .null (.num 3)
    [.num 3, .bool false, .str "a", .null] [("unknown", .num 7)] [("extra", .str "x")]
    1 "u" dbEmpty (by decide) (by decide)
    (by simp [List.pairwise_cons, pyEq])
    ⟨.num 3, by simp, by decide⟩
